import Mathlib

/-!
Shallow embedding of the Personal-Expense-Tracker repository
(`server.js`, `src/db.js`, `src/App.jsx`).

Modelling conventions:
* JavaScript numbers that hold expense amounts are modelled as `ℚ`
  (the claims under study do not depend on float rounding).
* An expense `date` is modelled by its time value (milliseconds since
  the epoch, as produced by `new Date(...).getTime()`), an `Int`.
  In a request body an absent date — and the only falsy date string,
  the empty string — is modelled as `none`.
* The server stores records without a `synced` field (`SExpense`);
  the client's local IndexedDB store holds records with the `synced`
  flag (`Expense`).  Both stores are modelled as lists in insertion /
  key order; IndexedDB operations `add`/`put`/`delete` become the
  list operations `addExpense`/`updateExpense`/`deleteExpense` below.
* `fetch` responses always resolve in this model (the "online" case);
  HTTP-level outcomes are the `Resp` values the server handlers return.
-/

/-- A record as held by the server (`server.js`): destructured fields
`id, amount, description, category, date`, no `synced` field. -/
structure SExpense where
  id : String
  amount : ℚ
  description : String
  category : String
  date : Int
  deriving Repr, DecidableEq

/-- A record as held in the client's local store and working set
(`App.jsx` / `db.js`): the server fields plus the `synced` flag. -/
structure Expense where
  id : String
  amount : ℚ
  description : String
  category : String
  date : Int
  synced : Bool
  deriving Repr, DecidableEq

/-- `{ ...exp, synced: true }` applied to a record received from the
server (`App.jsx` line 68): the remote record viewed locally. -/
def toSynced (s : SExpense) : Expense :=
  ⟨s.id, s.amount, s.description, s.category, s.date, true⟩

/-- The server-side part of a local record — what the server keeps of a
POSTed body after destructuring (it drops `synced`). -/
def Expense.toS (e : Expense) : SExpense :=
  ⟨e.id, e.amount, e.description, e.category, e.date⟩

/- ### Server (`server.js`) -/

/-- Body of `POST /expenses` as destructured on line 59 of `server.js`;
each field may be absent. -/
structure PostBody where
  id : Option String
  amount : Option ℚ
  description : Option String
  category : Option String
  date : Option Int
  deriving Repr, DecidableEq

/-- Body of `PUT /expenses/:id` as destructured on line 82 of
`server.js`; the `id` comes from the URL, not the body. -/
structure PutBody where
  amount : Option ℚ
  description : Option String
  category : Option String
  date : Option Int
  deriving Repr, DecidableEq

/-- JavaScript falsiness of a string-valued field (`!id` etc.):
absent, or the empty string. -/
def falsyStr : Option String → Bool
  | none => true
  | some s => decide (s = "")

/-- JavaScript falsiness of the numeric `amount` field: absent, or zero.
(`NaN` is also falsy in JS but has no counterpart in `ℚ`.) -/
def falsyNum : Option ℚ → Bool
  | none => true
  | some q => decide (q = 0)

/-- Falsiness of the `date` field: only absence (the empty string is
subsumed by `none`, see the header comment). -/
def falsyDate : Option Int → Bool
  | none => true
  | some _ => false

/-- A server HTTP response, as produced by the four route handlers. -/
inductive Resp where
  | ok (body : List SExpense)
  | created (body : SExpense)
  | updated (body : SExpense)
  | noContent
  | badRequest (error : String)
  | notFound (error : String)
  deriving Repr, DecidableEq

/-- The HTTP status code each `Resp` constructor is sent with. -/
def Resp.status : Resp → Nat
  | .ok _ => 200
  | .created _ => 201
  | .updated _ => 200
  | .noContent => 204
  | .badRequest _ => 400
  | .notFound _ => 404

/-- `expenses[findIndex] = u` after a successful `findIndex`: replace
the first record satisfying `p`. -/
def replaceFirst (p : SExpense → Bool) (u : SExpense) : List SExpense → List SExpense
  | [] => []
  | e :: rest => if p e then u :: rest else e :: replaceFirst p u rest

/-- `expenses.splice(findIndex, 1)` after a successful `findIndex`:
remove the first record satisfying `p`. -/
def eraseFirst (p : SExpense → Bool) : List SExpense → List SExpense
  | [] => []
  | e :: rest => if p e then rest else e :: eraseFirst p rest

/-- `POST /expenses` (`server.js` lines 58–77).  Returns the response,
the new in-memory list, and whether `saveToDisk` ran.  Validation is
JS falsiness of each destructured field; on success the record is
pushed unconditionally (no duplicate-`id` check). -/
def postExpense (expenses : List SExpense) (body : PostBody) :
    Resp × List SExpense × Bool :=
  if falsyStr body.id || falsyNum body.amount || falsyStr body.description ||
      falsyStr body.category || falsyDate body.date then
    (.badRequest "All fields are required", expenses, false)
  else
    let newExpense : SExpense :=
      ⟨body.id.getD "", body.amount.getD 0, body.description.getD "",
       body.category.getD "", body.date.getD 0⟩
    (.created newExpense, expenses ++ [newExpense], true)

/-- `PUT /expenses/:id` (`server.js` lines 80–103).  `findIndex` first
(404 on miss), then field validation (400), then in-place update. -/
def putExpense (expenses : List SExpense) (id : String) (body : PutBody) :
    Resp × List SExpense × Bool :=
  if expenses.any (fun exp => decide (exp.id = id)) then
    if falsyNum body.amount || falsyStr body.description ||
        falsyStr body.category || falsyDate body.date then
      (.badRequest "All fields are required", expenses, false)
    else
      let updated : SExpense :=
        ⟨id, body.amount.getD 0, body.description.getD "",
         body.category.getD "", body.date.getD 0⟩
      (.updated updated,
       replaceFirst (fun exp => decide (exp.id = id)) updated expenses, true)
  else
    (.notFound "Expense not found", expenses, false)

/-- `DELETE /expenses/:id` (`server.js` lines 106–118): `findIndex`,
404 on miss, else `splice` out the found record. -/
def deleteExpenseRoute (expenses : List SExpense) (id : String) :
    Resp × List SExpense × Bool :=
  if expenses.any (fun exp => decide (exp.id = id)) then
    (.noContent, eraseFirst (fun exp => decide (exp.id = id)) expenses, true)
  else
    (.notFound "Expense not found", expenses, false)

/-- One incoming server request (the four routes of `server.js`). -/
inductive Request where
  | getAll
  | post (body : PostBody)
  | put (id : String) (body : PutBody)
  | del (id : String)
  deriving Repr, DecidableEq

/-- Dispatch of a request to its route handler; result is the response,
the expense list afterwards, and whether the backing file was
rewritten (`saveToDisk`). -/
def handle (expenses : List SExpense) : Request → Resp × List SExpense × Bool
  | .getAll => (.ok expenses, expenses, false)
  | .post body => postExpense expenses body
  | .put id body => putExpense expenses id body
  | .del id => deleteExpenseRoute expenses id

/- ### Local IndexedDB store (`src/db.js`) -/

/-- `addExpense` (`db.js` lines 21–27): IndexedDB `store.add`, which
rejects (throws) when a record with the same key already exists. -/
def addExpense (l : List Expense) (exp : Expense) : Option (List Expense) :=
  if l.any (fun r => decide (r.id = exp.id)) then none else some (l ++ [exp])

/-- `updateExpense` (`db.js` lines 38–44): IndexedDB `store.put` —
overwrite the record with the same key, or insert if absent. -/
def updateExpense (l : List Expense) (exp : Expense) : List Expense :=
  if l.any (fun r => decide (r.id = exp.id)) then
    l.map (fun r => if r.id = exp.id then exp else r)
  else
    l ++ [exp]

/-- `deleteExpense` (`db.js` lines 47–53): IndexedDB `store.delete`
by key. -/
def deleteExpense (l : List Expense) (id : String) : List Expense :=
  l.filter (fun r => decide (r.id ≠ id))

/- ### Client reconciliation (`src/App.jsx`) -/

/-- `loadExpenses` (`App.jsx` lines 61–95) in the online branch, for a
fixed remote list `server` and local store `store`.  Returns the
working set passed to `setExpenses` and the local store after the
write-back loop of lines 82–84. -/
def loadExpensesOnline (server : List SExpense) (store : List Expense) :
    List Expense × List Expense :=
  let serverWithFlag := server.map toSynced
  let pendingLocal := store.filter (fun le => !le.synced)
  let serverIds := serverWithFlag.map (·.id)
  let pendingNotOnServer :=
    pendingLocal.filter (fun p => !decide (p.id ∈ serverIds))
  let merged := serverWithFlag ++ pendingNotOnServer
  (merged, serverWithFlag.foldl updateExpense store)

/-- The `POST /expenses` body sent by `syncExpenses`
(`JSON.stringify(exp)`, `App.jsx` line 107): every field present. -/
def Expense.toPostBody (e : Expense) : PostBody :=
  ⟨some e.id, some e.amount, some e.description, some e.category, some e.date⟩

/-- One iteration of the sweep loop of `syncExpenses` (`App.jsx`
lines 102–112) over the snapshot of local records: state is
(server list, local store, list of POSTed records). -/
def syncSweepStep (st : List SExpense × List Expense × List Expense)
    (exp : Expense) : List SExpense × List Expense × List Expense :=
  if exp.synced then st
  else
    let (remote, store, reqs) := st
    ((postExpense remote exp.toPostBody).2.1,
     updateExpense store { exp with synced := true },
     reqs ++ [exp])

/-- The sweep of `syncExpenses` (`App.jsx` lines 98–112): iterate over
the snapshot `store` read by `getExpenses`, POSTing each pending
record and writing it back with `synced = true` regardless of the
response.  Returns (remote, local, issued create requests). -/
def syncSweep (remote : List SExpense) (store : List Expense) :
    List SExpense × List Expense × List Expense :=
  store.foldl syncSweepStep (remote, store, [])

/-- `syncExpenses` (`App.jsx` lines 98–119) while online: the sweep,
then `loadExpenses` (line 114).  Returns the final working set and
local store from the reload, plus the remote list and request log
of the sweep. -/
def syncExpenses (remote : List SExpense) (store : List Expense) :
    (List Expense × List Expense) × List SExpense × List Expense :=
  let (remote', store', reqs) := syncSweep remote store
  (loadExpensesOnline remote' store', remote', reqs)

/-- `handleDelete` (`App.jsx` lines 160–166): if online, issue the
remote `DELETE /expenses/:id`; in every case delete from the local
store.  Returns (remote, local, whether a remote delete was issued). -/
def handleDelete (isOnline : Bool) (remote : List SExpense)
    (store : List Expense) (id : String) :
    List SExpense × List Expense × Bool :=
  let remote' := if isOnline then (deleteExpenseRoute remote id).2.1 else remote
  (remote', deleteExpense store id, isOnline)

/- ### Summary computation (`App.jsx` lines 169–185) -/

/-- The three summary periods. -/
inductive Period where
  | today
  | week
  | month
  deriving Repr, DecidableEq

/-- The client's clock at the moment `getSummary` runs: `now` is the
current time value, and the two calendar-derived instants computed
by `new Date(y, m, d)` / `new Date(y, m, 1)` in the local timezone. -/
structure Clock where
  now : Int
  startOfLocalDay : Int
  startOfLocalMonth : Int
  deriving Repr, DecidableEq

/-- The `start` instant chosen by `getSummary` for each period:
start of the local day, `now` minus 7×24h, start of the local month. -/
def summaryStart (c : Clock) : Period → Int
  | .today => c.startOfLocalDay
  | .week => c.now - 7 * 24 * 60 * 60 * 1000
  | .month => c.startOfLocalMonth

/-- `getSummary` (`App.jsx` lines 169–185): sum `amount` over the
records of the working set whose date is `>= start`. -/
def getSummary (c : Clock) (period : Period) (expenses : List Expense) : ℚ :=
  let start := summaryStart c period
  (expenses.filter (fun exp => decide (start ≤ exp.date))).foldl
    (fun sum exp => sum + exp.amount) 0

/-- The summary C8 describes: the same sum but restricted to dates
between the window start and `now` — this is the claim's reading,
written out to be compared with `getSummary`. -/
def getSummaryClaimed (c : Clock) (period : Period)
    (expenses : List Expense) : ℚ :=
  let start := summaryStart c period
  (expenses.filter
      (fun exp => decide (start ≤ exp.date ∧ exp.date ≤ c.now))).foldl
    (fun sum exp => sum + exp.amount) 0

/- ### Concrete sample data used to evaluate the model -/

/-- A pending (offline-created) local record. -/
def exPending : Expense := ⟨"1", 5, "Coffee", "Food", 10, false⟩

/-- A synced local record. -/
def exSynced : Expense := ⟨"2", 7, "Bus", "Transport", 20, true⟩

/-- A remote record unknown to the local store. -/
def exRemote : SExpense := ⟨"3", 9, "Rent", "Rent", 30⟩

/-- The remote copy of `exPending` after a successful push. -/
def exRemote1 : SExpense := ⟨"1", 5, "Coffee", "Food", 10⟩

/-- A record dated after `exClockFuture.now`. -/
def exFuture : Expense := ⟨"f", 1, "Gift", "Other", 200, true⟩

/-- A clock with `now = 100` and day/month starts behind it. -/
def exClockFuture : Clock := ⟨100, 0, -50⟩

/-- A clock whose three summary windows nest
(month start ≤ now − 7 days ≤ day start ≤ now). -/
def exClockNested : Clock := ⟨1000000000, 999999000, 0⟩

/-- A POST body with every field present but a zero amount. -/
def bodyZeroAmount : PostBody := ⟨some "1", some 0, some "x", some "Food", some 5⟩

/-- A POST body with every field present and truthy. -/
def bodyValid : PostBody := ⟨some "9", some 2, some "x", some "Food", some 5⟩

/-- A POST body valid but reusing the id of `exRemote1`. -/
def bodyDup : PostBody := ⟨some "1", some 2, some "x", some "Food", some 5⟩

/-- A POST body with the `id` field missing. -/
def bodyNoId : PostBody := ⟨none, some 1, some "a", some "Food", some 2⟩

/-- A PUT body with every field present and truthy. -/
def putBodyValid : PutBody := ⟨some 1, some "b", some "Food", some 2⟩

/- ### Helper lemmas -/

/-- `store.put` leaves a filtered view unchanged when the new record
and every record sharing its id fall outside the filter. -/
lemma filter_map_replace (P : Expense → Bool) (e : Expense)
    (hid : ∀ r : Expense, r.id = e.id → P r = false) (l : List Expense) :
    (l.map (fun r => if r.id = e.id then e else r)).filter P = l.filter P := by
  induction l with
  | nil => rfl
  | cons r rest ih =>
    by_cases hr : r.id = e.id
    · simp [hr, hid r hr, hid e rfl, ih]
    · simp [hr, List.filter_cons, ih]

lemma filter_updateExpense (P : Expense → Bool) (e : Expense)
    (hid : ∀ r : Expense, r.id = e.id → P r = false) (l : List Expense) :
    (updateExpense l e).filter P = l.filter P := by
  unfold updateExpense
  split
  · exact filter_map_replace P e hid l
  · simp [hid e rfl]

/-- Folding `store.put` over records outside a filter leaves the
filtered view unchanged. -/
lemma filter_foldl_updateExpense (P : Expense → Bool)
    (srv : List Expense)
    (h : ∀ e ∈ srv, ∀ r : Expense, r.id = e.id → P r = false) :
    ∀ l : List Expense, (srv.foldl updateExpense l).filter P = l.filter P := by
  induction srv with
  | nil => intro l; simp
  | cons e rest ih =>
    intro l
    have he := h e (by simp)
    rw [List.foldl_cons, ih (fun x hx => h x (by simp [hx])),
      filter_updateExpense P e he]

/-- C1: the load/merge algorithm is idempotent — with the remote list
fixed and no intervening mutation, running `loadExpenses` twice (the
second run starting from the local store the first run wrote back)
produces the same working set as the first run. -/
theorem loadExpenses_idempotent (server : List SExpense) (store : List Expense) :
    (loadExpensesOnline server (loadExpensesOnline server store).2).1 =
      (loadExpensesOnline server store).1 := by
  simp only [loadExpensesOnline]
  congr 1
  rw [List.filter_filter, List.filter_filter]
  apply filter_foldl_updateExpense
  intro e he r hr
  have hmem : r.id ∈ (server.map toSynced).map (fun x => x.id) := by
    rw [hr]; exact List.mem_map_of_mem _ he
  have hdec : decide (r.id ∈ (server.map toSynced).map (fun x => x.id)) = true :=
    decide_eq_true hmem
  simp only [hdec, Bool.not_true, Bool.false_and]

/-- C2: when online the working set is exactly the remote records
(each marked `synced = true`) followed by those local records with
`synced = false` whose id does not appear in the remote list, in
that order. -/
theorem loadExpenses_working_set (server : List SExpense) (store : List Expense) :
    (loadExpensesOnline server store).1 =
      server.map toSynced ++
        store.filter
          (fun e => decide (e.synced = false ∧ e.id ∉ server.map SExpense.id)) := by
  simp only [loadExpensesOnline]
  congr 1
  rw [List.filter_filter]
  apply List.filter_congr
  intro e _
  have hids : (server.map toSynced).map (fun x => x.id) = server.map SExpense.id := by
    rw [List.map_map]; rfl
  rw [hids]
  by_cases hs : e.synced <;> by_cases hm : e.id ∈ server.map SExpense.id <;>
    simp [hs, hm]

/-- C7: a `PUT /expenses/:id` whose id matches no stored record gets a
404 response with body error "Expense not found". -/
theorem put_unknown_id_404 (expenses : List SExpense) (id : String)
    (body : PutBody) (h : ∀ e ∈ expenses, e.id ≠ id) :
    (putExpense expenses id body).1 = .notFound "Expense not found" ∧
    (putExpense expenses id body).1.status = 404 := by
  have hany : expenses.any (fun exp => decide (exp.id = id)) = false := by
    simp only [List.any_eq_false, decide_eq_true_eq]
    exact h
  refine ⟨?_, ?_⟩ <;> simp [putExpense, hany, Resp.status]

/-- Witness for C7: `PUT /expenses/999` against a store holding only
id "3". -/
theorem put_unknown_id_404_witness :
    (putExpense [exRemote] "999" putBodyValid).1 = .notFound "Expense not found" ∧
    (putExpense [exRemote] "999" putBodyValid).1.status = 404 :=
  put_unknown_id_404 [exRemote] "999" putBodyValid (by decide)

/-- C10: whenever a route handler answers 400 or 404, the in-memory
expense list is unchanged and the backing file is not rewritten. -/
theorem server_error_atomicity (expenses : List SExpense) (req : Request)
    (h : (handle expenses req).1.status = 400 ∨
         (handle expenses req).1.status = 404) :
    (handle expenses req).2.1 = expenses ∧ (handle expenses req).2.2 = false := by
  cases req with
  | getAll => simp [handle, Resp.status] at h
  | post body =>
    by_cases hc : (falsyStr body.id || falsyNum body.amount ||
        falsyStr body.description || falsyStr body.category ||
        falsyDate body.date) = true
    · simp [handle, postExpense, hc]
    · simp [handle, postExpense, hc, Resp.status] at h
  | put id body =>
    by_cases h1 : (expenses.any fun exp => decide (exp.id = id)) = true
    · by_cases h2 : (falsyNum body.amount || falsyStr body.description ||
          falsyStr body.category || falsyDate body.date) = true
      · simp [handle, putExpense, h1, h2]
      · simp [handle, putExpense, h1, h2, Resp.status] at h
    · simp [handle, putExpense, h1]
  | del id =>
    by_cases h1 : (expenses.any fun exp => decide (exp.id = id)) = true
    · simp [handle, deleteExpenseRoute, h1, Resp.status] at h
    · simp [handle, deleteExpenseRoute, h1]

/-- Witness for C10: a POST with no id gets a 400 and leaves the empty
store and its file untouched. -/
theorem server_error_atomicity_witness :
    (handle [] (.post bodyNoId)).2.1 = [] ∧ (handle [] (.post bodyNoId)).2.2 = false :=
  server_error_atomicity [] (.post bodyNoId) (Or.inl rfl)

/-- Counterexample to C6: a body with all five fields present but a
zero amount is rejected with 400 (JS falsiness, not absence, drives
validation), so "400 if and only if a field is missing" is false. -/
theorem post_validation_counterexample :
    bodyZeroAmount.id.isSome = true ∧ bodyZeroAmount.amount.isSome = true ∧
    bodyZeroAmount.description.isSome = true ∧
    bodyZeroAmount.category.isSome = true ∧ bodyZeroAmount.date.isSome = true ∧
    (postExpense [] bodyZeroAmount).1.status = 400 ∧
    (postExpense [] bodyZeroAmount).2.1 = [] := by
  refine ⟨rfl, rfl, rfl, rfl, rfl, ?_, ?_⟩ <;>
    simp [postExpense, bodyZeroAmount, falsyStr, falsyNum, falsyDate, Resp.status]

/-- C6 as amended: `POST /expenses` answers 400 exactly when some field
is missing or falsy (absent, empty string, zero amount), and when no
field is falsy it answers 201 with the stored record, which is
appended to the list. -/
theorem post_validation_amended (expenses : List SExpense) (body : PostBody) :
    ((postExpense expenses body).1.status = 400 ↔
      (falsyStr body.id || falsyNum body.amount || falsyStr body.description ||
       falsyStr body.category || falsyDate body.date) = true) ∧
    ((falsyStr body.id || falsyNum body.amount || falsyStr body.description ||
       falsyStr body.category || falsyDate body.date) = false →
      (postExpense expenses body).1 =
        .created ⟨body.id.getD "", body.amount.getD 0, body.description.getD "",
                  body.category.getD "", body.date.getD 0⟩ ∧
      (postExpense expenses body).1.status = 201 ∧
      (postExpense expenses body).2.1 = expenses ++
        [⟨body.id.getD "", body.amount.getD 0, body.description.getD "",
          body.category.getD "", body.date.getD 0⟩]) := by
  by_cases hc : (falsyStr body.id || falsyNum body.amount ||
      falsyStr body.description || falsyStr body.category ||
      falsyDate body.date) = true
  · simp [postExpense, hc, Resp.status]
  · simp [postExpense, hc, Resp.status]

/-- Witness for C6 (amended): a fully truthy body is stored with 201. -/
theorem post_validation_amended_witness :
    (postExpense [] bodyValid).1 = .created ⟨"9", 2, "x", "Food", 5⟩ ∧
    (postExpense [] bodyValid).1.status = 201 ∧
    (postExpense [] bodyValid).2.1 = [⟨"9", 2, "x", "Food", 5⟩] :=
  (post_validation_amended [] bodyValid).2
    (by simp [bodyValid, falsyStr, falsyNum, falsyDate])

/-- Replacing the record found by `findIndex` with one carrying the
same id leaves the list of ids unchanged. -/
lemma map_id_replaceFirst (u : SExpense) (id : String) (hu : u.id = id)
    (l : List SExpense) :
    (replaceFirst (fun e => decide (e.id = id)) u l).map SExpense.id =
      l.map SExpense.id := by
  induction l with
  | nil => rfl
  | cons e rest ih =>
    by_cases he : e.id = id
    · simp [replaceFirst, he, hu]
    · simp [replaceFirst, he, ih]

/-- `splice(findIndex, 1)` yields a sublist of the original list. -/
lemma eraseFirst_sublist (p : SExpense → Bool) (l : List SExpense) :
    (eraseFirst p l).Sublist l := by
  induction l with
  | nil => simp [eraseFirst]
  | cons e rest ih =>
    by_cases hp : p e = true
    · simp only [eraseFirst, hp, if_true]
      exact List.sublist_cons_self e rest
    · simpa [eraseFirst, hp] using List.Sublist.cons₂ e ih

/-- IndexedDB `put` preserves uniqueness of ids in the local store. -/
lemma updateExpense_nodup (l : List Expense) (exp : Expense)
    (h : (l.map Expense.id).Nodup) :
    ((updateExpense l exp).map Expense.id).Nodup := by
  unfold updateExpense
  split
  · have heq : (l.map (fun r => if r.id = exp.id then exp else r)).map Expense.id
        = l.map Expense.id := by
      rw [List.map_map]
      apply List.map_congr_left
      intro r _
      by_cases hr : r.id = exp.id <;> simp [hr]
    rw [heq]; exact h
  · next hc =>
      have hmem : exp.id ∉ l.map Expense.id := by
        simp only [List.any_eq_true, decide_eq_true_eq] at hc
        intro hm
        obtain ⟨r, hr, hrid⟩ := List.mem_map.mp hm
        exact hc ⟨r, hr, hrid⟩
      rw [List.map_append]
      simp only [List.map_cons, List.map_nil]
      refine List.Nodup.append h (List.nodup_singleton _) ?_
      intro a ha hb
      simp only [List.mem_singleton] at hb
      exact hmem (hb ▸ ha)

/-- Counterexample to C4: the remote store does not enforce id
uniqueness — a POST whose id is already present appends a second
record with that id (`expenses.push` with no duplicate check). -/
theorem id_uniqueness_counterexample :
    ((postExpense [exRemote1] bodyDup).2.1).map SExpense.id = ["1", "1"] ∧
    ¬ (((postExpense [exRemote1] bodyDup).2.1).map SExpense.id).Nodup := by
  have h : ((postExpense [exRemote1] bodyDup).2.1).map SExpense.id = ["1", "1"] := by
    simp [postExpense, bodyDup, exRemote1, falsyStr, falsyNum, falsyDate]
  exact ⟨h, by rw [h]; decide⟩

/-- C4 as amended: id uniqueness is an invariant of the local store
(preserved by `add`, `put` and `delete`) and is preserved by the
remote update and delete handlers, but the remote create handler
violates it: a create whose id already exists remotely yields a
store whose ids are no longer unique. -/
theorem id_uniqueness_amended :
    (∀ (l : List Expense) (exp : Expense) (l2 : List Expense),
        (l.map Expense.id).Nodup → addExpense l exp = some l2 →
        (l2.map Expense.id).Nodup) ∧
    (∀ (l : List Expense) (exp : Expense), (l.map Expense.id).Nodup →
        ((updateExpense l exp).map Expense.id).Nodup) ∧
    (∀ (l : List Expense) (id : String), (l.map Expense.id).Nodup →
        ((deleteExpense l id).map Expense.id).Nodup) ∧
    (∀ (s : List SExpense) (id : String) (body : PutBody),
        (s.map SExpense.id).Nodup →
        (((putExpense s id body).2.1).map SExpense.id).Nodup) ∧
    (∀ (s : List SExpense) (id : String), (s.map SExpense.id).Nodup →
        (((deleteExpenseRoute s id).2.1).map SExpense.id).Nodup) ∧
    (∀ (s : List SExpense) (body : PostBody) (e : SExpense),
        (postExpense s body).1 = .created e → e.id ∈ s.map SExpense.id →
        ¬ (((postExpense s body).2.1).map SExpense.id).Nodup) := by
  refine ⟨?_, ?_, ?_, ?_, ?_, ?_⟩
  · intro l exp l2 h hadd
    unfold addExpense at hadd
    split at hadd
    · exact absurd hadd (by simp)
    · next hc =>
        have h2 := updateExpense_nodup l exp h
        unfold updateExpense at h2
        rw [if_neg hc] at h2
        obtain rfl : l ++ [exp] = l2 := Option.some.inj hadd
        exact h2
  · exact updateExpense_nodup
  · intro l id h
    exact List.Nodup.sublist ((List.filter_sublist l).map Expense.id) h
  · intro s id body h
    by_cases h1 : (s.any fun exp => decide (exp.id = id)) = true
    · by_cases h2 : (falsyNum body.amount || falsyStr body.description ||
          falsyStr body.category || falsyDate body.date) = true
      · simpa [putExpense, h1, h2] using h
      · simp only [putExpense, h1, h2, if_true, if_false, Bool.false_eq_true]
        rw [map_id_replaceFirst _ id rfl]
        exact h
    · simpa [putExpense, h1] using h
  · intro s id h
    by_cases h1 : (s.any fun exp => decide (exp.id = id)) = true
    · simp only [deleteExpenseRoute, h1, if_true]
      exact List.Nodup.sublist
        ((eraseFirst_sublist (fun exp => decide (exp.id = id)) s).map SExpense.id) h
    · simpa [deleteExpenseRoute, h1] using h
  · intro s body e hresp hmem hnd
    by_cases hc : (falsyStr body.id || falsyNum body.amount ||
        falsyStr body.description || falsyStr body.category ||
        falsyDate body.date) = true
    · rw [postExpense] at hresp
      rw [if_pos hc] at hresp
      exact absurd hresp (by simp)
    · rw [postExpense] at hresp hnd
      rw [if_neg hc] at hresp hnd
      simp only at hresp hnd
      obtain rfl := Resp.created.inj hresp
      rw [List.map_append] at hnd
      have hdisj := (List.nodup_append.mp hnd).2.2
      exact hdisj hmem (by simp)

/-- Witness for C4 (amended): concrete preservation for local `put` and
remote `PUT`, and a concrete duplicate-id remote create. -/
theorem id_uniqueness_amended_witness :
    ((updateExpense [exPending] exSynced).map Expense.id).Nodup ∧
    (((putExpense [exRemote1] "1" putBodyValid).2.1).map SExpense.id).Nodup ∧
    ¬ (((postExpense [exRemote1] bodyDup).2.1).map SExpense.id).Nodup := by
  refine ⟨id_uniqueness_amended.2.1 [exPending] exSynced (by decide),
          id_uniqueness_amended.2.2.2.1 [exRemote1] "1" putBodyValid (by decide),
          id_uniqueness_amended.2.2.2.2.2 [exRemote1] bodyDup
            ⟨"1", 2, "x", "Food", 5⟩ ?_ (by decide)⟩
  simp [postExpense, bodyDup, falsyStr, falsyNum, falsyDate]

/-- After `splice(findIndex(id), 1)` on a list with unique ids, the id
no longer occurs. -/
lemma not_mem_eraseFirst_id (id : String) (l : List SExpense)
    (h : (l.map SExpense.id).Nodup) :
    id ∉ (eraseFirst (fun e => decide (e.id = id)) l).map SExpense.id := by
  induction l with
  | nil => simp [eraseFirst]
  | cons e rest ih =>
    rw [List.map_cons, List.nodup_cons] at h
    by_cases he : e.id = id
    · simp only [eraseFirst]
      rw [if_pos (by simp [he])]
      exact he ▸ h.1
    · simp only [eraseFirst]
      rw [if_neg (by simp [he])]
      simp only [List.map_cons, List.mem_cons, not_or]
      exact ⟨fun hh => he hh.symm, ih h.2⟩

/-- IndexedDB `delete` removes every record keyed by the id. -/
lemma not_mem_deleteExpense (store : List Expense) (id : String) :
    id ∉ (deleteExpense store id).map Expense.id := by
  intro hm
  rw [List.mem_map] at hm
  obtain ⟨r, hr, hrid⟩ := hm
  rw [deleteExpense, List.mem_filter] at hr
  exact absurd hrid (by simpa using hr.2)

/-- C5: deleting online issues the remote delete and removes the record
from both stores; deleting offline issues no remote request, leaves
the remote store untouched, and removes the record locally. -/
theorem handleDelete_semantics (remote : List SExpense) (store : List Expense)
    (id : String) (h : (remote.map SExpense.id).Nodup) :
    ((handleDelete true remote store id).2.2 = true ∧
     id ∉ ((handleDelete true remote store id).1).map SExpense.id ∧
     id ∉ ((handleDelete true remote store id).2.1).map Expense.id) ∧
    ((handleDelete false remote store id).2.2 = false ∧
     (handleDelete false remote store id).1 = remote ∧
     id ∉ ((handleDelete false remote store id).2.1).map Expense.id) := by
  refine ⟨⟨rfl, ?_, ?_⟩, rfl, rfl, ?_⟩
  · by_cases h1 : (remote.any fun exp => decide (exp.id = id)) = true
    · simp only [handleDelete, deleteExpenseRoute, h1, if_true]
      exact not_mem_eraseFirst_id id remote h
    · simp only [handleDelete, deleteExpenseRoute, h1, if_true, if_false,
        Bool.false_eq_true]
      simp only [List.any_eq_true, decide_eq_true_eq, not_exists] at h1
      intro hm
      obtain ⟨r, hr, hrid⟩ := List.mem_map.mp hm
      exact h1 r ⟨hr, hrid⟩
  · exact not_mem_deleteExpense store id
  · exact not_mem_deleteExpense store id

/-- Witness for C5: deleting id "1" online removes it from both stores;
deleting it offline leaves the remote list untouched. -/
theorem handleDelete_semantics_witness :
    ((handleDelete true [exRemote1, exRemote] [exPending, exSynced] "1").2.2 = true ∧
     "1" ∉ ((handleDelete true [exRemote1, exRemote] [exPending, exSynced] "1").1).map SExpense.id ∧
     "1" ∉ ((handleDelete true [exRemote1, exRemote] [exPending, exSynced] "1").2.1).map Expense.id) ∧
    ((handleDelete false [exRemote1, exRemote] [exPending, exSynced] "1").2.2 = false ∧
     (handleDelete false [exRemote1, exRemote] [exPending, exSynced] "1").1 = [exRemote1, exRemote] ∧
     "1" ∉ ((handleDelete false [exRemote1, exRemote] [exPending, exSynced] "1").2.1).map Expense.id) :=
  handleDelete_semantics [exRemote1, exRemote] [exPending, exSynced] "1" (by decide)

/-- The summation loop of `getSummary` is the sum of the amounts. -/
lemma foldl_add_amounts (es : List Expense) :
    ∀ a : ℚ, es.foldl (fun sum exp => sum + exp.amount) a =
      a + (es.map Expense.amount).sum := by
  induction es with
  | nil => intro a; simp
  | cons e rest ih =>
    intro a
    rw [List.foldl_cons, ih]
    simp [add_assoc]

/-- `getSummary` equals the sum of `amount` over the records whose date
is at or after the chosen window start (no upper bound). -/
lemma getSummary_eq_sum (c : Clock) (p : Period) (es : List Expense) :
    getSummary c p es =
      ((es.filter (fun e => decide (summaryStart c p ≤ e.date))).map
        Expense.amount).sum := by
  rw [getSummary, foldl_add_amounts, zero_add]

/-- Sums over date-filtered views are antitone in the window start when
no amount is negative. -/
lemma sum_filter_start_mono (s t : Int) (hst : s ≤ t) (es : List Expense)
    (hnn : ∀ e ∈ es, 0 ≤ e.amount) :
    ((es.filter (fun e => decide (t ≤ e.date))).map Expense.amount).sum ≤
      ((es.filter (fun e => decide (s ≤ e.date))).map Expense.amount).sum := by
  induction es with
  | nil => simp
  | cons e rest ih =>
    have h0 : 0 ≤ e.amount := hnn e (by simp)
    have ih' := ih (fun x hx => hnn x (by simp [hx]))
    by_cases h2 : t ≤ e.date
    · have h1 : s ≤ e.date := le_trans hst h2
      rw [List.filter_cons, List.filter_cons, if_pos (by simpa using h2),
        if_pos (by simpa using h1)]
      simp only [List.map_cons, List.sum_cons]
      exact add_le_add_left ih' e.amount
    · by_cases h1 : s ≤ e.date
      · rw [List.filter_cons, List.filter_cons, if_neg (by simpa using h2),
          if_pos (by simpa using h1)]
        simp only [List.map_cons, List.sum_cons]
        exact le_add_of_nonneg_of_le h0 ih'
      · rw [List.filter_cons, List.filter_cons, if_neg (by simpa using h2),
          if_neg (by simpa using h1)]
        exact ih'

/-- Counterexample to C8: `getSummary` applies no upper bound, so a
record dated after `now` (date 200 > now = 100) is counted in the
"today" window, while the claimed window start-of-day..now excludes
it — the two computations disagree. -/
theorem getSummary_counterexample :
    getSummary exClockFuture Period.today [exFuture] = 1 ∧
    getSummaryClaimed exClockFuture Period.today [exFuture] = 0 ∧
    getSummary exClockFuture Period.today [exFuture] ≠
      getSummaryClaimed exClockFuture Period.today [exFuture] := by
  refine ⟨?_, ?_, ?_⟩ <;>
    simp [getSummary, getSummaryClaimed, summaryStart, exClockFuture, exFuture]

/-- C8 as amended: `getSummary` sums `amount` over exactly those
records whose date is at or after the window start (start of local
day for "today", now − 7×24h for "week", start of local month for
"month"); no upper bound is applied, so records dated after `now`
are also counted. -/
theorem getSummary_window_amended (c : Clock) (p : Period) (es : List Expense) :
    getSummary c p es =
      ((es.filter (fun e => decide (summaryStart c p ≤ e.date))).map
        Expense.amount).sum :=
  getSummary_eq_sum c p es

/-- C9: with no negative amounts and nesting windows
(month start ≤ now − 7 days ≤ day start), the summary totals are
monotone: today ≤ week ≤ month. -/
theorem summary_monotone (c : Clock) (es : List Expense)
    (hm : c.startOfLocalMonth ≤ c.now - 7 * 24 * 60 * 60 * 1000)
    (hw : c.now - 7 * 24 * 60 * 60 * 1000 ≤ c.startOfLocalDay)
    (hnn : ∀ e ∈ es, 0 ≤ e.amount) :
    getSummary c .today es ≤ getSummary c .week es ∧
    getSummary c .week es ≤ getSummary c .month es := by
  rw [getSummary_eq_sum, getSummary_eq_sum, getSummary_eq_sum]
  exact ⟨sum_filter_start_mono _ _ hw es hnn, sum_filter_start_mono _ _ hm es hnn⟩

/-- Witness for C9 at a concrete nesting clock and nonnegative data. -/
theorem summary_monotone_witness :
    getSummary exClockNested .today [exPending, exSynced] ≤
      getSummary exClockNested .week [exPending, exSynced] ∧
    getSummary exClockNested .week [exPending, exSynced] ≤
      getSummary exClockNested .month [exPending, exSynced] :=
  summary_monotone exClockNested [exPending, exSynced] (by decide) (by decide)
    (by
      intro e he
      simp only [List.mem_cons, List.not_mem_nil, or_false] at he
      rcases he with rfl | rfl <;> norm_num [exPending, exSynced])

/-- The request log of the sweep: one POST per pending record, in
snapshot order. -/
lemma sweep_fold_reqs (todo : List Expense) :
    ∀ (remote : List SExpense) (l acc : List Expense),
      (todo.foldl syncSweepStep (remote, l, acc)).2.2 =
        acc ++ todo.filter (fun e => !e.synced) := by
  induction todo with
  | nil => intro r l acc; simp
  | cons e rest ih =>
    intro r l acc
    by_cases he : e.synced = true
    · rw [List.foldl_cons]
      simp only [syncSweepStep, he, if_true]
      rw [ih, List.filter_cons]
      simp [he]
    · rw [List.foldl_cons]
      simp only [syncSweepStep, he, if_false, Bool.false_eq_true]
      rw [ih, List.filter_cons]
      simp [he]

/-- The remote store of the sweep: the remote list after POSTing each
pending record in snapshot order. -/
lemma sweep_fold_remote (todo : List Expense) :
    ∀ (remote : List SExpense) (l acc : List Expense),
      (todo.foldl syncSweepStep (remote, l, acc)).1 =
        (todo.filter (fun e => !e.synced)).foldl
          (fun r e => (postExpense r e.toPostBody).2.1) remote := by
  induction todo with
  | nil => intro r l acc; simp
  | cons e rest ih =>
    intro r l acc
    by_cases he : e.synced = true
    · rw [List.foldl_cons]
      simp only [syncSweepStep, he, if_true]
      rw [ih, List.filter_cons]
      simp [he]
    · rw [List.foldl_cons]
      simp only [syncSweepStep, he, if_false, Bool.false_eq_true]
      rw [ih, List.filter_cons]
      simp [he]

/-- The local store of the sweep: the write-backs fold over the
snapshot, independently of the remote state and request log. -/
lemma sweep_fold_store (todo : List Expense) :
    ∀ (remote : List SExpense) (l acc : List Expense),
      (todo.foldl syncSweepStep (remote, l, acc)).2.1 =
        todo.foldl
          (fun l e => if e.synced then l else
            updateExpense l { e with synced := true }) l := by
  induction todo with
  | nil => intro r l acc; rfl
  | cons e rest ih =>
    intro r l acc
    by_cases he : e.synced = true
    · rw [List.foldl_cons, List.foldl_cons]
      simp only [syncSweepStep, he, if_true]
      exact ih r l acc
    · rw [List.foldl_cons, List.foldl_cons]
      simp only [syncSweepStep, he, if_false, Bool.false_eq_true]
      exact ih _ _ _

/-- Replacing by a record whose id occurs nowhere in the list is a
no-op. -/
lemma map_replace_eq_of_not_mem (x : Expense) (l : List Expense)
    (h : x.id ∉ l.map Expense.id) :
    l.map (fun r => if r.id = x.id then x else r) = l := by
  induction l with
  | nil => rfl
  | cons r rest ih =>
    simp only [List.map_cons, List.mem_cons, not_or] at h
    simp only [List.map_cons]
    rw [if_neg (fun hh => h.1 hh.symm), ih h.2]

/-- The ids of a store are unchanged by setting every `synced` flag. -/
lemma map_id_map_setSynced (l : List Expense) :
    (l.map (fun e => ({ e with synced := true } : Expense))).map Expense.id
      = l.map Expense.id := by
  rw [List.map_map]
  rfl

/-- Write-back fold of the sweep: starting from a snapshot with unique
ids (of which a prefix is already flagged), setting `synced = true`
on each pending record by `put` flags the whole store in place. -/
lemma fold_update_synced (post : List Expense) :
    ∀ pre : List Expense, ((pre ++ post).map Expense.id).Nodup →
      post.foldl
        (fun l e => if e.synced then l else
          updateExpense l { e with synced := true })
        (pre.map (fun e => { e with synced := true }) ++ post) =
      (pre ++ post).map (fun e => { e with synced := true }) := by
  induction post with
  | nil => intro pre h; simp
  | cons e rest ih =>
    intro pre h
    have hsplit : e.id ∉ pre.map Expense.id ∧ e.id ∉ rest.map Expense.id := by
      rw [List.map_append, List.map_cons] at h
      obtain ⟨hp, hc, hdisj⟩ := List.nodup_append.mp h
      refine ⟨fun hm => absurd (hdisj hm) (by simp), (List.nodup_cons.mp hc).1⟩
    have hB : pre ++ e :: rest = (pre ++ [e]) ++ rest := by simp
    rw [List.foldl_cons]
    by_cases he : e.synced = true
    · have hee : ({ e with synced := true } : Expense) = e := by
        cases e
        simp only at he
        rw [he]
      rw [if_pos he]
      have hA : pre.map (fun e => ({ e with synced := true } : Expense)) ++ e :: rest
          = (pre ++ [e]).map (fun e => ({ e with synced := true } : Expense)) ++ rest := by
        rw [List.map_append]
        simp [hee]
      rw [hA, hB]
      exact ih (pre ++ [e]) (by rw [← hB]; exact h)
    · rw [if_neg he]
      have hany : ((pre.map (fun e => ({ e with synced := true } : Expense)) ++ e :: rest).any
          fun r => decide (r.id = ({ e with synced := true } : Expense).id)) = true :=
        List.any_eq_true.mpr ⟨e, by simp, by simp⟩
      have hpre' : ({ e with synced := true } : Expense).id ∉
          (pre.map (fun e => ({ e with synced := true } : Expense))).map Expense.id := by
        rw [map_id_map_setSynced]
        exact hsplit.1
      have hupd : updateExpense
            (pre.map (fun e => ({ e with synced := true } : Expense)) ++ e :: rest)
            { e with synced := true }
          = (pre ++ [e]).map (fun e => ({ e with synced := true } : Expense)) ++ rest := by
        rw [updateExpense, if_pos hany, List.map_append, List.map_cons,
          map_replace_eq_of_not_mem _ _ hpre',
          if_pos (show e.id = ({ e with synced := true } : Expense).id from rfl),
          map_replace_eq_of_not_mem { e with synced := true } rest hsplit.2,
          List.map_append]
        simp
      rw [hupd, hB]
      exact ih (pre ++ [e]) (by rw [← hB]; exact h)

/-- C3: during an online push sweep over a snapshot with unique ids,
one create request carrying the full record is issued for exactly
the pending (`synced = false`) records, in order (both as the
request log and as the fold of the server's create handler over
them); every pending record is written back locally with
`synced = true` regardless of the response (the store afterwards is
the snapshot with every flag set); and after the sweep completes
the load/merge algorithm is re-run on the resulting stores. -/
theorem syncExpenses_push_sweep (remote : List SExpense) (store : List Expense)
    (h : (store.map Expense.id).Nodup) :
    (syncSweep remote store).2.2 = store.filter (fun e => !e.synced) ∧
    (syncSweep remote store).1 =
      (store.filter (fun e => !e.synced)).foldl
        (fun r e => (postExpense r e.toPostBody).2.1) remote ∧
    (syncSweep remote store).2.1 =
      store.map (fun e => { e with synced := true }) ∧
    syncExpenses remote store =
      (loadExpensesOnline (syncSweep remote store).1 (syncSweep remote store).2.1,
       (syncSweep remote store).1, (syncSweep remote store).2.2) := by
  refine ⟨?_, ?_, ?_, rfl⟩
  · simpa using sweep_fold_reqs store remote store []
  · exact sweep_fold_remote store remote store []
  · rw [syncSweep, sweep_fold_store]
    simpa using fold_update_synced store [] (by simpa using h)

/-- Witness for C3: pushing a store with one pending and one synced
record against a one-record remote list. -/
theorem syncExpenses_push_sweep_witness :
    (syncSweep [exRemote] [exPending, exSynced]).2.2 =
      [exPending, exSynced].filter (fun e => !e.synced) ∧
    (syncSweep [exRemote] [exPending, exSynced]).1 =
      ([exPending, exSynced].filter (fun e => !e.synced)).foldl
        (fun r e => (postExpense r e.toPostBody).2.1) [exRemote] ∧
    (syncSweep [exRemote] [exPending, exSynced]).2.1 =
      [exPending, exSynced].map (fun e => { e with synced := true }) ∧
    syncExpenses [exRemote] [exPending, exSynced] =
      (loadExpensesOnline (syncSweep [exRemote] [exPending, exSynced]).1
        (syncSweep [exRemote] [exPending, exSynced]).2.1,
       (syncSweep [exRemote] [exPending, exSynced]).1,
       (syncSweep [exRemote] [exPending, exSynced]).2.2) :=
  syncExpenses_push_sweep [exRemote] [exPending, exSynced] (by decide)
